import Mathlib

/-!
Shallow embedding of the client-side view logic of the dart-or-penny frontend
(src/frontend/src/page.tsx and the three unnamed variants of the same page).
The embedding covers the data model (PageItem), the sort state and the
sort/filter pipeline of PageItemList, the search-everywhere URL construction,
and the lazy WebSocket thumbnail pipeline of the part_000 variant.
External JS library functions that the code calls (RegExp, toUpperCase,
localeCompare, encodeURIComponent, localStorage, Array.prototype.sort) are
modelled explicitly; each model notes the JS behaviour it captures.
-/

/-- Kind of a filesystem entry, from the generated bindings: "Dir" or "File". -/
inductive ItemKind where
  | Dir
  | File
deriving DecidableEq

/-- One filesystem entry as injected into the page (types.PageItem):
kind, filename (href path), basename (display name), three timestamp strings,
and an optional thumbnail identifier (thumbnail_name, nullable). -/
structure PageItem where
  kind : ItemKind
  filename : String
  basename : String
  created : String
  modified : String
  accessed : String
  thumbnail_name : Option String
deriving DecidableEq

/-- Sort column union type of the page: "filename" | "created" | "modified" | "accessed". -/
inductive SortCol where
  | filename
  | created
  | modified
  | accessed
deriving DecidableEq, Fintype

/-- Sort order union type of the page: "dirsFirst" | "asc" | "desc". -/
inductive SortOrder where
  | dirsFirst
  | asc
  | desc
deriving DecidableEq, Fintype

/-- Reads the string stored under a sort column of an item (the indexing
a[sortCol] in the source). -/
def colStr : SortCol → PageItem → String
  | SortCol.filename, item => item.filename
  | SortCol.created, item => item.created
  | SortCol.modified, item => item.modified
  | SortCol.accessed, item => item.accessed

/-- Models JS String.prototype.toUpperCase, uppercasing character by character
via Char.toUpper (exact on the ASCII strings these pages sort and compare;
full Unicode case mapping is out of scope of the claims). -/
def toUpperCase (s : String) : String := String.mk (s.data.map Char.toUpper)

/-- Models JS String.prototype.localeCompare as the sign of the code-point
lexicographic comparison of the two strings. The source only ever calls it on
two uppercased filenames, where the default collation agrees with the
lexicographic order used by the spec. -/
def localeCompare (a b : String) : Int :=
  if a.data < b.data then -1 else if b.data < a.data then 1 else 0

/-- The ascending name comparator of doSort:
a[sortCol].toUpperCase().localeCompare(b[sortCol].toUpperCase()) with sortCol = "filename". -/
def nameCmpAsc (a b : PageItem) : Int :=
  localeCompare (toUpperCase a.filename) (toUpperCase b.filename)

/-- The timestamp comparator of doSort:
new Date(a[sortCol]).getTime() - new Date(b[sortCol]).getTime(). Date parsing is
an external browser facility, so it is a parameter parseDate of the embedding;
no claim depends on its values. -/
def dateCmp (parseDate : String → Int) (col : SortCol) (a b : PageItem) : Int :=
  parseDate (colStr col a) - parseDate (colStr col b)

/-- Models [...oldItems].sort(cmp): ES2019 requires Array.prototype.sort to be
stable, and for a consistent comparator the result is the unique stable order;
we realise it with insertion sort on the relation cmp a b ≤ 0 (an element moves
past another exactly when the comparator says it must). -/
def jsSortBy (cmp : PageItem → PageItem → Int) (l : List PageItem) : List PageItem :=
  List.insertionSort (fun a b => cmp a b ≤ 0) l

/-- The doSort function shared verbatim by part_000 (lines 227-250), part_001
(lines 173-196) and part_002 (lines 191-214): dirsFirst returns the items array
unchanged; the filename column sorts by uppercased localeCompare (negated for
desc); the timestamp columns sort by parsed date difference. The trailing
return [] of the source is unreachable because SortOrder has exactly the three
listed values. -/
def doSort (parseDate : String → Int) (sortCol : SortCol) (sortOrder : SortOrder)
    (items : List PageItem) : List PageItem :=
  if sortOrder = SortOrder.dirsFirst then items
  else if sortCol = SortCol.filename then
    if sortOrder = SortOrder.asc then jsSortBy nameCmpAsc items
    else jsSortBy (fun a b => -nameCmpAsc a b) items
  else
    if sortOrder = SortOrder.asc then jsSortBy (dateCmp parseDate sortCol) items
    else jsSortBy (fun a b => dateCmp parseDate sortCol b a) items

/-- The nextSortOrder function shared by part_000 (lines 251-262), part_001 and
part_002 (lines 216-227): on the filename column the cycle is
dirsFirst → asc → desc → dirsFirst; on every other column the fall-through
branch gives dirsFirst → desc → asc → dirsFirst. -/
def nextSortOrder (sortCol : SortCol) (sortOrder : SortOrder) : SortOrder :=
  if sortCol = SortCol.filename then
    match sortOrder with
    | SortOrder.dirsFirst => SortOrder.asc
    | SortOrder.asc => SortOrder.desc
    | SortOrder.desc => SortOrder.dirsFirst
  else
    match sortOrder with
    | SortOrder.dirsFirst => SortOrder.desc
    | SortOrder.desc => SortOrder.asc
    | SortOrder.asc => SortOrder.dirsFirst

/-- The (sortCol, sortOrder) pair held in component state. -/
structure SortState where
  sortCol : SortCol
  sortOrder : SortOrder
deriving DecidableEq

/-- The onClick handler of a header column (part_000 lines 275-282, part_002
lines 239-246): clicking the active column advances its order with
nextSortOrder; clicking another column selects it and applies nextSortOrder to
"dirsFirst". -/
def headerClick (s : SortState) (col : SortCol) : SortState :=
  if col = s.sortCol then ⟨s.sortCol, nextSortOrder col s.sortOrder⟩
  else ⟨col, nextSortOrder col SortOrder.dirsFirst⟩

/-- Models the JS RegExp facility, which is external to the repository: compile
takes the pattern and the flags string and either fails with a SyntaxError
(none, as the constructor new RegExp(pattern, flags) throws) or yields a
matcher; the matcher m applied to a string models str.search(re) >= 0. -/
structure RegexEngine where
  compile : String → String → Option (String → Bool)

/-- The flags string of the filter code: caseSensitive ? "" : "i". -/
def regexFlags (caseSensitive : Bool) : String :=
  if caseSensitive then "" else "i"

/-- Outcome of rendering the item table of the part_002 variant: the displayed
item list plus whether the invalid-regex warning element is rendered. -/
structure FilterOutcome where
  shown : List PageItem
  regexWarning : Bool
deriving DecidableEq

/-- The guarded sort-plus-filter pipeline of part_002 (lines 114-121 and
229-232): the RegExp is built once inside try/catch; on a SyntaxError the
warning is rendered and reg stays undefined, so the filter condition
searchInput !== "" && reg !== undefined fails and the sorted, unfiltered list
is displayed. -/
def pageView_002 (eng : RegexEngine) (parseDate : String → Int) (items : List PageItem)
    (searchInput : String) (caseSensitive : Bool) (sortCol : SortCol) (sortOrder : SortOrder) :
    FilterOutcome :=
  let sorted := doSort parseDate sortCol sortOrder items
  match eng.compile searchInput (regexFlags caseSensitive) with
  | none => ⟨sorted, true⟩
  | some reg =>
    ⟨if searchInput = "" then sorted else sorted.filter (fun item => reg item.filename), false⟩

/-- The unguarded filter of src/frontend/src/page.tsx (lines 134-140): the
RegExp is constructed inside the filter callback with no try/catch, so an
invalid pattern raises a SyntaxError as soon as the callback first runs, i.e.
whenever the search input is nonempty and the item list is nonempty. The
Except value carries either the thrown error or the displayed list (this
variant does not sort). -/
def filteredItems_pagetsx (eng : RegexEngine) (items : List PageItem)
    (searchInput : String) (caseSensitive : Bool) : Except String (List PageItem) :=
  if searchInput = "" then Except.ok items
  else
    match items, eng.compile searchInput (regexFlags caseSensitive) with
    | [], _ => Except.ok []
    | _ :: _, none => Except.error "SyntaxError: invalid regular expression"
    | l, some reg => Except.ok (l.filter (fun item => reg item.filename))

/-- Decides whether pat occurs as a contiguous run inside l. -/
def containsRun (pat : List Char) : List Char → Bool
  | [] => pat.isEmpty
  | c :: rest => pat.isPrefixOf (c :: rest) || containsRun pat rest

/-- A concrete regex engine used to evaluate the embeddings below, faithful to
JS RegExp on the few inputs it is applied to: the pattern "(" is a SyntaxError
(unterminated group), and a pattern of plain characters matches exactly the
strings containing it, compared case-insensitively when the flags contain i. -/
def plainEngine : RegexEngine where
  compile pattern flags :=
    if pattern = "(" then none
    else some (fun s =>
      if flags = "i" then containsRun (toUpperCase pattern).toList (toUpperCase s).toList
      else containsRun pattern.toList s.toList)

/-- UTF-8 encoding of a Unicode code point as its list of byte values. -/
def utf8Bytes (c : Nat) : List Nat :=
  if c < 128 then [c]
  else if c < 2048 then [192 + c / 64, 128 + c % 64]
  else if c < 65536 then [224 + c / 4096, 128 + (c / 64) % 64, 128 + c % 64]
  else [240 + c / 262144, 128 + (c / 4096) % 64, 128 + (c / 64) % 64, 128 + c % 64]

/-- Uppercase hexadecimal digit for a value below 16. -/
def hexDigit (n : Nat) : Char :=
  if n < 10 then Char.ofNat (48 + n) else Char.ofNat (55 + n)

/-- The characters encodeURIComponent leaves unescaped: ASCII alphanumerics and
the nine marks listed by the ECMAScript spec (character 39 is the apostrophe
and character 126 the tilde). -/
def isUnreserved (ch : Char) : Bool :=
  ch.isAlphanum || ch = '-' || ch = '_' || ch = '.' || ch = '!' || ch = Char.ofNat 126 ||
    ch = '*' || ch = Char.ofNat 39 || ch = '(' || ch = ')'

/-- Encoding of a single character under encodeURIComponent: unreserved
characters stand for themselves, every other character becomes the
percent-escaped uppercase-hex UTF-8 byte sequence (character 37 is the percent
sign). -/
def encodeChar (ch : Char) : List Char :=
  if isUnreserved ch then [ch]
  else ((utf8Bytes ch.toNat).map
    (fun b => [Char.ofNat 37, hexDigit (b / 16), hexDigit (b % 16)])).flatten

/-- Models the JS global encodeURIComponent, per the ECMAScript definition. -/
def encodeURIComponent (s : String) : String :=
  String.mk (s.toList.map encodeChar).flatten

/-- The search-everywhere URL built by doSearchEverywhere, identical in
src/frontend/src/page.tsx (lines 55-66), part_000 (lines 107-118), part_001 and
part_002 (lines 63-69): note the branch sends case_insensitive=false when the
caseSensitive flag is set and case_sensitive=true when it is unset. -/
def searchUrl (pageRoot searchInput : String) (caseSensitive : Bool) : String :=
  pageRoot ++ "/.dop/search?regex=" ++ encodeURIComponent searchInput ++ "&" ++
    (if caseSensitive then "case_insensitive=false" else "case_sensitive=true")

/-- Explicit store of JS array objects, used to state facts about in-place
mutation: a reference is an index into the list of allocated arrays. -/
structure JsHeap where
  arrays : List (List PageItem)

/-- Dereferences an array reference. -/
def JsHeap.read (h : JsHeap) (r : Nat) : List PageItem :=
  (h.arrays[r]?).getD []

/-- Allocates a fresh array object holding a, returning the new heap and the
fresh reference. -/
def JsHeap.alloc (h : JsHeap) (a : List PageItem) : JsHeap × Nat :=
  (⟨h.arrays ++ [a]⟩, h.arrays.length)

/-- Overwrites the array object behind reference r. -/
def JsHeap.write (h : JsHeap) (r : Nat) (a : List PageItem) : JsHeap :=
  ⟨h.arrays.set r a⟩

/-- Heap-level rendering of doSort (part_000 lines 227-250): for dirsFirst the
base reference itself is returned; otherwise the spread [...oldItems] allocates
a fresh array with a copy of the elements and .sort(cmp) mutates that fresh
array in place, leaving the base array untouched. The element-level result of
the sort is the pure doSort above. -/
def doSortHeap (parseDate : String → Int) (sortCol : SortCol) (sortOrder : SortOrder)
    (h : JsHeap) (itemsRef : Nat) : JsHeap × Nat :=
  if sortOrder = SortOrder.dirsFirst then (h, itemsRef)
  else
    let copy := h.read itemsRef
    let alloced := h.alloc copy
    (alloced.1.write alloced.2 (doSort parseDate sortCol sortOrder copy), alloced.2)

/-- Heap-level rendering of the filteredItems computation of part_000 (lines
264-268): sort, then, when the search input is nonempty, filter through a fresh
RegExp built per callback. Array.prototype.filter allocates a new array. When
the pattern does not compile the first callback invocation throws, the filter
result never escapes, and the heap keeps only the arrays already allocated
(the aborted result array is unobservable); the returned reference is then
none. An empty input list never runs the callback, so filtering an empty list
succeeds even for an invalid pattern. -/
def pageViewHeap (eng : RegexEngine) (parseDate : String → Int) (sortCol : SortCol)
    (sortOrder : SortOrder) (searchInput : String) (caseSensitive : Bool)
    (h : JsHeap) (itemsRef : Nat) : JsHeap × Option Nat :=
  let sorted := doSortHeap parseDate sortCol sortOrder h itemsRef
  if searchInput = "" then (sorted.1, some sorted.2)
  else
    match sorted.1.read sorted.2, eng.compile searchInput (regexFlags caseSensitive) with
    | [], _ =>
      let fres := sorted.1.alloc []
      (fres.1, some fres.2)
    | _ :: _, none => (sorted.1, none)
    | l, some reg =>
      let fres := sorted.1.alloc (l.filter (fun item => reg item.filename))
      (fres.1, some fres.2)

/-- Thumbnail WebSocket message payload (types.ThumbnailData or
types.ThumbnailError): a name plus either base64 image bytes or an error
message. -/
inductive ThumbnailResponse where
  | thumbData (name : String) (bytes : String)
  | thumbError (name : String) (message : String)
deriving DecidableEq

/-- The name field carried by either response variant. -/
def ThumbnailResponse.name : ThumbnailResponse → String
  | ThumbnailResponse.thumbData n _ => n
  | ThumbnailResponse.thumbError n _ => n

/-- Recognises the ThumbnailData variant. -/
def ThumbnailResponse.isData : ThumbnailResponse → Bool
  | ThumbnailResponse.thumbData _ _ => true
  | ThumbnailResponse.thumbError _ _ => false

/-- Models window.localStorage as seen through the thumbnail code: every write
stores JSON.stringify of a response under its name, and every read parses the
stored string back (with getItem(k) ?? "null" parsing to null on a missing
key), so the JSON round-trip is modelled as the identity and the store maps
names to optional responses. -/
def ThumbStorage : Type := String → Option ThumbnailResponse

/-- The socket.onmessage handler of part_000 (lines 295-301): the parsed
response is written to localStorage only when it is ThumbnailData, and is
always dispatched on the event target as a ThumbnailEvent. The second
component records the dispatched event. -/
def onMessage (storage : ThumbStorage) (r : ThumbnailResponse) :
    ThumbStorage × ThumbnailResponse :=
  (match r with
   | ThumbnailResponse.thumbData n d =>
     fun k => if k = n then some (ThumbnailResponse.thumbData n d) else storage k
   | ThumbnailResponse.thumbError _ _ => storage,
   r)

/-- Folds a sequence of socket messages through onMessage, returning the final
localStorage contents. -/
def runMessages (storage : ThumbStorage) : List ThumbnailResponse → ThumbStorage
  | [] => storage
  | r :: rs => runMessages (onMessage storage r).1 rs

/-- Per-row context of PageItemListRow in part_000: the thumbnail_name of the
item (nullable) and whether the shared WebSocket is connected (socket is null
until the onopen handler stores it). -/
structure RowCtx where
  thumbnailName : Option String
  socketOpen : Bool
deriving DecidableEq

/-- Per-row view state: the thumbnailResponse useState cell, the inView flag of
useInView (triggerOnce, so it never resets), and the list of identifiers passed
to socket.send so far, in order. -/
structure RowState where
  response : Option ThumbnailResponse
  inView : Bool
  sends : List String
deriving DecidableEq

/-- Initial row state at mount (part_000 lines 22-25): the useState initialiser
reads the cache only when item.thumbnail_name is truthy, i.e. non-null and not
the empty string; inView starts false and nothing has been sent. -/
def rowInit (storage : ThumbStorage) (ctx : RowCtx) : RowState :=
  { response :=
      match ctx.thumbnailName with
      | some n => if n = "" then none else storage n
      | none => none,
    inView := false,
    sends := [] }

/-- One execution of the component body (part_000 lines 37-40): during every
render, if the row is in view, thumbnail_name !== null, no response is present
and the socket is non-null, then socket.send(item.thumbnail_name) runs. -/
def rowRender (ctx : RowCtx) (s : RowState) : RowState :=
  match ctx.thumbnailName with
  | some n =>
    if s.inView ∧ s.response = none ∧ ctx.socketOpen then { s with sends := s.sends ++ [n] }
    else s
  | none => s

/-- Events that can reach a mounted row: the intersection observer firing
(scroll into view, triggerOnce), a ThumbnailEvent delivered on the shared event
target (the listener is registered only for truthy thumbnail_name and stores
the response only when the names match, part_000 lines 27-35), or a re-render
caused by the parent with no row state change. -/
inductive RowEvent where
  | scroll
  | bus (r : ThumbnailResponse)
  | rerender
deriving DecidableEq

/-- Effect of one event: update the row state, then run the render body that
React triggers afterwards. -/
def rowStep (ctx : RowCtx) (s : RowState) (e : RowEvent) : RowState :=
  rowRender ctx
    (match e with
     | RowEvent.scroll => { s with inView := true }
     | RowEvent.bus r =>
       match ctx.thumbnailName with
       | some n => if n ≠ "" ∧ r.name = n then { s with response := some r } else s
       | none => s
     | RowEvent.rerender => s)

/-- A whole page view of one row: mount (initial state and initial render),
then the given event sequence. -/
def rowRun (ctx : RowCtx) (storage : ThumbStorage) (events : List RowEvent) : RowState :=
  events.foldl (rowStep ctx) (rowRender ctx (rowInit storage ctx))

/-- A one-element item list used to evaluate the embeddings on concrete input:
the file A.txt of the worked example in the spec. -/
def sampleItemA : PageItem :=
  ⟨ItemKind.File, "A.txt", "A.txt", "", "", "", none⟩

/-- The file b.txt of the worked example in the spec. -/
def sampleItemB : PageItem :=
  ⟨ItemKind.File, "b.txt", "b.txt", "", "", "", none⟩

/-- Claim C4: for every sort column, the sort-order successor returns to the
starting order after three applications, and the three orders visited are
pairwise distinct, i.e. repeated clicks on one header traverse the full
3-state cycle. -/
theorem nextSortOrder_three_cycle :
    ∀ (col : SortCol) (ord : SortOrder),
      nextSortOrder col (nextSortOrder col (nextSortOrder col ord)) = ord ∧
      nextSortOrder col ord ≠ ord ∧
      nextSortOrder col (nextSortOrder col ord) ≠ ord ∧
      nextSortOrder col (nextSortOrder col ord) ≠ nextSortOrder col ord := by
  decide

/-- Witness for C4 at the filename column starting from dirsFirst. -/
theorem nextSortOrder_three_cycle_witness :
    nextSortOrder SortCol.filename
        (nextSortOrder SortCol.filename (nextSortOrder SortCol.filename SortOrder.dirsFirst)) =
      SortOrder.dirsFirst ∧
    nextSortOrder SortCol.filename SortOrder.dirsFirst ≠ SortOrder.dirsFirst ∧
    nextSortOrder SortCol.filename (nextSortOrder SortCol.filename SortOrder.dirsFirst) ≠
      SortOrder.dirsFirst ∧
    nextSortOrder SortCol.filename (nextSortOrder SortCol.filename SortOrder.dirsFirst) ≠
      nextSortOrder SortCol.filename SortOrder.dirsFirst :=
  nextSortOrder_three_cycle SortCol.filename SortOrder.dirsFirst

/-- Claim C3 as stated is false: with filename active, clicking the created
header sets the order to descending, not ascending, because nextSortOrder
applied to dirsFirst on a non-filename column returns desc. -/
theorem headerClick_new_timestamp_col_desc :
    headerClick ⟨SortCol.filename, SortOrder.dirsFirst⟩ SortCol.created =
      ⟨SortCol.created, SortOrder.desc⟩ ∧
    headerClick ⟨SortCol.filename, SortOrder.dirsFirst⟩ SortCol.created ≠
      ⟨SortCol.created, SortOrder.asc⟩ := by
  decide

/-- Claim C3 (amended): clicking the header of a column that is not active
switches to that column, starting at ascending when the new column is
filename and at descending when it is a timestamp column. -/
theorem headerClick_new_col (s : SortState) (col : SortCol) (h : col ≠ s.sortCol) :
    headerClick s col =
      ⟨col, if col = SortCol.filename then SortOrder.asc else SortOrder.desc⟩ := by
  unfold headerClick
  rw [if_neg h]
  cases col <;> rfl

/-- Witness for the amended C3: switching from the active filename column to
the created column. -/
theorem headerClick_new_col_witness :
    SortCol.created ≠ (SortState.mk SortCol.filename SortOrder.asc).sortCol ∧
    headerClick ⟨SortCol.filename, SortOrder.asc⟩ SortCol.created =
      ⟨SortCol.created,
        if SortCol.created = SortCol.filename then SortOrder.asc else SortOrder.desc⟩ :=
  ⟨by decide, headerClick_new_col ⟨SortCol.filename, SortOrder.asc⟩ SortCol.created (by decide)⟩

/-- Claim C6: for every item list and every sort column, sorting with the
dirsFirst order returns the base list itself, unchanged: doSort takes the
early return before looking at the column or the comparator. -/
theorem doSort_dirsFirst_id :
    ∀ (parseDate : String → Int) (col : SortCol) (items : List PageItem),
      doSort parseDate col SortOrder.dirsFirst items = items := by
  intro parseDate col items
  rfl

/-- Witness for C6 on the two-element sample list and the created column. -/
theorem doSort_dirsFirst_id_witness :
    doSort (fun _ => 0) SortCol.created SortOrder.dirsFirst [sampleItemB, sampleItemA] =
      [sampleItemB, sampleItemA] :=
  doSort_dirsFirst_id (fun _ => 0) SortCol.created [sampleItemB, sampleItemA]

/-- Every Unicode scalar value is below 0x110000. -/
theorem char_toNat_lt_unicode (c : Char) : c.toNat < 1114112 := by
  have h : c.val.toNat < 55296 ∨ (57343 < c.val.toNat ∧ c.val.toNat < 1114112) := c.valid
  show c.val.toNat < 1114112
  omega

/-- UTF-8 bytes of a scalar value are single bytes. -/
theorem utf8Bytes_lt (n : Nat) (hn : n < 1114112) : ∀ b ∈ utf8Bytes n, b < 256 := by
  intro b hb
  unfold utf8Bytes at hb
  by_cases h1 : n < 128
  · simp [h1] at hb
    omega
  · by_cases h2 : n < 2048
    · simp [h1, h2] at hb
      rcases hb with rfl | rfl <;> omega
    · by_cases h3 : n < 65536
      · simp [h1, h2, h3] at hb
        rcases hb with rfl | rfl | rfl <;> omega
      · simp [h1, h2, h3] at hb
        rcases hb with rfl | rfl | rfl | rfl <;> omega

/-- Hex digits are never the query delimiters ampersand or equals. -/
theorem hexDigit_ne_delims : ∀ k, k < 16 → hexDigit k ≠ '&' ∧ hexDigit k ≠ '=' := by
  decide

/-- No character produced by encodeChar is a query delimiter. -/
theorem encodeChar_ne_delims (ch : Char) : ∀ c ∈ encodeChar ch, c ≠ '&' ∧ c ≠ '=' := by
  intro c hc
  unfold encodeChar at hc
  by_cases hu : isUnreserved ch
  · simp [hu] at hc
    subst hc
    constructor <;> intro heq <;> rw [heq] at hu <;> revert hu <;> decide
  · simp [hu] at hc
    obtain ⟨b, hb, hcmem⟩ := hc
    have hb256 : b < 256 := utf8Bytes_lt ch.toNat (char_toNat_lt_unicode ch) b hb
    rcases hcmem with rfl | rfl | rfl
    · exact ⟨by decide, by decide⟩
    · exact hexDigit_ne_delims (b / 16) (by omega)
    · exact hexDigit_ne_delims (b % 16) (by omega)

/-- The percent-encoded pattern contains neither an ampersand nor an equals
sign, so the regex query parameter cannot run into the case parameter. -/
theorem encodeURIComponent_ne_delims (s : String) :
    ∀ c ∈ (encodeURIComponent s).toList, c ≠ '&' ∧ c ≠ '=' := by
  intro c hc
  have hc2 : c ∈ (s.toList.map encodeChar).flatten := hc
  rw [List.mem_flatten] at hc2
  obtain ⟨piece, hpiece, hcp⟩ := hc2
  rw [List.mem_map] at hpiece
  obtain ⟨ch, _, rfl⟩ := hpiece
  exact encodeChar_ne_delims ch c hcp

/-- Claim C2 (amended): the search URL is the page root followed by
/.dop/search?regex=, the URL-encoded pattern (which cannot contain a parameter
delimiter), an ampersand, and the case parameter — which is
case_insensitive=false when the caseSensitive flag is SET and
case_sensitive=true when it is UNSET, the opposite pairing from the one the
claim states. -/
theorem searchUrl_shape :
    ∀ (pageRoot searchInput : String) (caseSensitive : Bool),
      searchUrl pageRoot searchInput caseSensitive =
        pageRoot ++ "/.dop/search?regex=" ++ encodeURIComponent searchInput ++ "&" ++
          (if caseSensitive then "case_insensitive=false" else "case_sensitive=true") ∧
      (∀ c ∈ (encodeURIComponent searchInput).toList, c ≠ '&' ∧ c ≠ '=') := by
  intro pageRoot searchInput caseSensitive
  exact ⟨rfl, encodeURIComponent_ne_delims searchInput⟩

/-- Witness for the amended C2 at the pattern "a" with the flag set. -/
theorem searchUrl_shape_witness :
    searchUrl "" "a" true =
      "" ++ "/.dop/search?regex=" ++ encodeURIComponent "a" ++ "&" ++
        (if true then "case_insensitive=false" else "case_sensitive=true") ∧
    (Char.ofNat 97 ≠ '&' ∧ Char.ofNat 97 ≠ '=') :=
  ⟨(searchUrl_shape "" "a" true).1,
   (searchUrl_shape "" "a" true).2 (Char.ofNat 97) (by decide)⟩

/-- Claim C2 as stated is false at the concrete pattern "a": with the
case-sensitive flag set the emitted query parameter is case_insensitive=false,
not case_sensitive=true; the parameter case_sensitive=true is what the unset
flag emits. -/
theorem searchUrl_case_params_swapped :
    searchUrl "" "a" true = "/.dop/search?regex=a&case_insensitive=false" ∧
    searchUrl "" "a" true ≠ "/.dop/search?regex=a&case_sensitive=true" ∧
    searchUrl "" "a" false = "/.dop/search?regex=a&case_sensitive=true" := by
  decide

/-- Claim C1 (amended): when the pattern does not compile, the part_002 variant
renders the invalid-regex warning and displays the sorted, unfiltered item
list, for every engine, item list, case flag and sort state; but in the
src/frontend/src/page.tsx variant the RegExp is built unguarded inside the
filter callback, so the same pattern makes filtering throw whenever the item
list and the search input are nonempty. -/
theorem invalid_regex_filter_behaviour (eng : RegexEngine) (parseDate : String → Int)
    (items : List PageItem) (searchInput : String) (caseSensitive : Bool)
    (sortCol : SortCol) (sortOrder : SortOrder)
    (h : eng.compile searchInput (regexFlags caseSensitive) = none) :
    pageView_002 eng parseDate items searchInput caseSensitive sortCol sortOrder =
      ⟨doSort parseDate sortCol sortOrder items, true⟩ ∧
    (items ≠ [] → searchInput ≠ "" →
      filteredItems_pagetsx eng items searchInput caseSensitive =
        Except.error "SyntaxError: invalid regular expression") := by
  constructor
  · unfold pageView_002
    rw [h]
  · intro hitems hinput
    unfold filteredItems_pagetsx
    rw [if_neg hinput]
    cases items with
    | nil => exact absurd rfl hitems
    | cons a l => rw [h]

/-- Witness for the amended C1 at the invalid pattern "(" on a one-item list. -/
theorem invalid_regex_filter_behaviour_witness :
    pageView_002 plainEngine (fun _ => 0) [sampleItemA] "(" false SortCol.filename
        SortOrder.dirsFirst =
      ⟨doSort (fun _ => 0) SortCol.filename SortOrder.dirsFirst [sampleItemA], true⟩ ∧
    filteredItems_pagetsx plainEngine [sampleItemA] "(" false =
      Except.error "SyntaxError: invalid regular expression" :=
  ⟨(invalid_regex_filter_behaviour plainEngine (fun _ => 0) [sampleItemA] "(" false
      SortCol.filename SortOrder.dirsFirst rfl).1,
   (invalid_regex_filter_behaviour plainEngine (fun _ => 0) [sampleItemA] "(" false
      SortCol.filename SortOrder.dirsFirst rfl).2 (by decide) (by decide)⟩

/-- Claim C1 as stated is false on the page.tsx variant: applying the filter
with the invalid pattern "(" to the one-item list throws a SyntaxError instead
of surfacing a warning and falling back to the unfiltered list. -/
theorem unguarded_filter_throws :
    filteredItems_pagetsx plainEngine [sampleItemA] "(" false =
      Except.error "SyntaxError: invalid regular expression" ∧
    ∀ l : List PageItem, filteredItems_pagetsx plainEngine [sampleItemA] "(" false ≠ Except.ok l := by
  have h1 : filteredItems_pagetsx plainEngine [sampleItemA] "(" false =
      Except.error "SyntaxError: invalid regular expression" := rfl
  refine ⟨h1, fun l hl => ?_⟩
  rw [h1] at hl
  exact Except.noConfusion hl

/-- The ascending name comparator reports non-positive exactly when the
uppercased filenames are in lexicographic order. -/
theorem nameCmpAsc_le_iff (a b : PageItem) :
    nameCmpAsc a b ≤ 0 ↔ toUpperCase a.filename ≤ toUpperCase b.filename := by
  unfold nameCmpAsc localeCompare
  split_ifs with h1 h2
  · norm_num [(String.lt_iff_toList_lt.mpr h1).le]
  · norm_num [not_le.mpr (String.lt_iff_toList_lt.mpr h2)]
  · have heq : toUpperCase a.filename = toUpperCase b.filename :=
      le_antisymm (not_lt.mp fun hc => h2 (String.lt_iff_toList_lt.mp hc))
        (not_lt.mp fun hc => h1 (String.lt_iff_toList_lt.mp hc))
    norm_num [le_of_eq heq]

/-- The negated name comparator (the desc branch) reports non-positive exactly
when the uppercased filenames are in reverse lexicographic order. -/
theorem nameCmpDesc_le_iff (a b : PageItem) :
    -nameCmpAsc a b ≤ 0 ↔ toUpperCase b.filename ≤ toUpperCase a.filename := by
  unfold nameCmpAsc localeCompare
  split_ifs with h1 h2
  · norm_num [not_le.mpr (String.lt_iff_toList_lt.mpr h1)]
  · norm_num [(String.lt_iff_toList_lt.mpr h2).le]
  · have heq : toUpperCase a.filename = toUpperCase b.filename :=
      le_antisymm (not_lt.mp fun hc => h2 (String.lt_iff_toList_lt.mp hc))
        (not_lt.mp fun hc => h1 (String.lt_iff_toList_lt.mp hc))
    norm_num [le_of_eq heq.symm]

/-- The name comparator reports a tie exactly when the uppercased filenames
coincide: the comparison is case-insensitive. -/
theorem nameCmpAsc_eq_iff (a b : PageItem) :
    nameCmpAsc a b = 0 ↔ toUpperCase a.filename = toUpperCase b.filename := by
  unfold nameCmpAsc localeCompare
  split_ifs with h1 h2
  · norm_num [ne_of_lt (String.lt_iff_toList_lt.mpr h1)]
  · norm_num [(ne_of_lt (String.lt_iff_toList_lt.mpr h2)).symm]
  · have heq : toUpperCase a.filename = toUpperCase b.filename :=
      le_antisymm (not_lt.mp fun hc => h2 (String.lt_iff_toList_lt.mp hc))
        (not_lt.mp fun hc => h1 (String.lt_iff_toList_lt.mp hc))
    norm_num [heq]

/-- Stability of the modelled Array.prototype.sort: elements on which the
predicate p holds keep their relative input order whenever the sort relation
holds between any two p-elements (in particular between comparator ties). -/
theorem filter_insertionSort_eq (r : PageItem → PageItem → Prop) [DecidableRel r]
    (p : PageItem → Bool) (hp : ∀ x y, p x = true → p y = true → r x y)
    (l : List PageItem) :
    (List.insertionSort r l).filter p = l.filter p := by
  have hpair : (l.filter p).Pairwise r :=
    List.pairwise_of_forall_mem_list (fun x hx y hy =>
      hp x y (List.of_mem_filter hx) (List.of_mem_filter hy))
  have hsub : List.Sublist (l.filter p) (List.insertionSort r l) :=
    List.sublist_insertionSort hpair (List.filter_sublist l)
  have hidem : (l.filter p).filter p = l.filter p := by simp
  have hsub2 : List.Sublist (l.filter p) ((List.insertionSort r l).filter p) := by
    have h := List.Sublist.filter p hsub
    rwa [hidem] at h
  have hlen : ((List.insertionSort r l).filter p).length = (l.filter p).length :=
    ((List.perm_insertionSort r l).filter p).length_eq
  exact (List.Sublist.eq_of_length hsub2 hlen.symm).symm

/-- Definitional reading of the ascending filename branch of doSort. -/
theorem doSort_filename_asc (parseDate : String → Int) (l : List PageItem) :
    doSort parseDate SortCol.filename SortOrder.asc l = jsSortBy nameCmpAsc l := rfl

/-- Definitional reading of the descending filename branch of doSort. -/
theorem doSort_filename_desc (parseDate : String → Int) (l : List PageItem) :
    doSort parseDate SortCol.filename SortOrder.desc l =
      jsSortBy (fun a b => -nameCmpAsc a b) l := rfl

/-- The ascending name sort produces a list ordered by uppercased filename. -/
theorem sorted_name_asc (l : List PageItem) :
    List.Sorted (fun x y : PageItem => toUpperCase x.filename ≤ toUpperCase y.filename)
      (jsSortBy nameCmpAsc l) := by
  letI instTot : IsTotal PageItem (fun a b => nameCmpAsc a b ≤ 0) :=
    ⟨fun a b => by
      rcases le_total (toUpperCase a.filename) (toUpperCase b.filename) with h | h
      · exact Or.inl ((nameCmpAsc_le_iff a b).mpr h)
      · exact Or.inr ((nameCmpAsc_le_iff b a).mpr h)⟩
  letI instTrans : IsTrans PageItem (fun a b => nameCmpAsc a b ≤ 0) :=
    ⟨fun a b c hab hbc =>
      (nameCmpAsc_le_iff a c).mpr
        (le_trans ((nameCmpAsc_le_iff a b).mp hab) ((nameCmpAsc_le_iff b c).mp hbc))⟩
  have hs := List.sorted_insertionSort (fun a b : PageItem => nameCmpAsc a b ≤ 0) l
  exact hs.imp (fun h => (nameCmpAsc_le_iff _ _).mp h)

/-- The descending name sort produces a list ordered by reversed uppercased
filename. -/
theorem sorted_name_desc (l : List PageItem) :
    List.Sorted (fun x y : PageItem => toUpperCase y.filename ≤ toUpperCase x.filename)
      (jsSortBy (fun a b => -nameCmpAsc a b) l) := by
  letI instTot : IsTotal PageItem (fun a b => -nameCmpAsc a b ≤ 0) :=
    ⟨fun a b => by
      rcases le_total (toUpperCase b.filename) (toUpperCase a.filename) with h | h
      · exact Or.inl ((nameCmpDesc_le_iff a b).mpr h)
      · exact Or.inr ((nameCmpDesc_le_iff b a).mpr h)⟩
  letI instTrans : IsTrans PageItem (fun a b => -nameCmpAsc a b ≤ 0) :=
    ⟨fun a b c hab hbc =>
      (nameCmpDesc_le_iff a c).mpr
        (le_trans ((nameCmpDesc_le_iff b c).mp hbc) ((nameCmpDesc_le_iff a b).mp hab))⟩
  have hs := List.sorted_insertionSort (fun a b : PageItem => -nameCmpAsc a b ≤ 0) l
  exact hs.imp (fun h => (nameCmpDesc_le_iff _ _).mp h)

/-- Claim C5: sorting by name is case-insensitive (the comparator ties exactly
on equal uppercased filenames), orders the output by uppercased filename
(ascending or descending), is stable (items with equal uppercased filenames
keep their input order, stated as filter invariance for every key), and on the
worked example list [b.txt, A.txt] the ascending sort yields [A.txt, b.txt]. -/
theorem name_sort_ci_stable :
    ∀ (parseDate : String → Int) (items : List PageItem) (k : String) (a b : PageItem),
      (nameCmpAsc a b = 0 ↔ toUpperCase a.filename = toUpperCase b.filename) ∧
      List.Sorted (fun x y : PageItem => toUpperCase x.filename ≤ toUpperCase y.filename)
        (doSort parseDate SortCol.filename SortOrder.asc items) ∧
      List.Sorted (fun x y : PageItem => toUpperCase y.filename ≤ toUpperCase x.filename)
        (doSort parseDate SortCol.filename SortOrder.desc items) ∧
      (doSort parseDate SortCol.filename SortOrder.asc items).filter
          (fun it => toUpperCase it.filename == k) =
        items.filter (fun it => toUpperCase it.filename == k) ∧
      (doSort parseDate SortCol.filename SortOrder.desc items).filter
          (fun it => toUpperCase it.filename == k) =
        items.filter (fun it => toUpperCase it.filename == k) ∧
      doSort parseDate SortCol.filename SortOrder.asc [sampleItemB, sampleItemA] =
        [sampleItemA, sampleItemB] := by
  intro parseDate items k a b
  refine ⟨nameCmpAsc_eq_iff a b, ?_, ?_, ?_, ?_, ?_⟩
  · rw [doSort_filename_asc]
    exact sorted_name_asc items
  · rw [doSort_filename_desc]
    exact sorted_name_desc items
  · rw [doSort_filename_asc]
    refine filter_insertionSort_eq _ _ (fun x y hx hy => ?_) items
    have hx2 : toUpperCase x.filename = k := by simpa using hx
    have hy2 : toUpperCase y.filename = k := by simpa using hy
    exact (nameCmpAsc_le_iff x y).mpr (le_of_eq (hx2.trans hy2.symm))
  · rw [doSort_filename_desc]
    refine filter_insertionSort_eq _ _ (fun x y hx hy => ?_) items
    have hx2 : toUpperCase x.filename = k := by simpa using hx
    have hy2 : toUpperCase y.filename = k := by simpa using hy
    exact (nameCmpDesc_le_iff x y).mpr (le_of_eq (hy2.trans hx2.symm))
  · rw [doSort_filename_asc]
    decide

/-- Witness for C5 at the worked example list and the key A.TXT. -/
theorem name_sort_ci_stable_witness :
    (nameCmpAsc sampleItemA sampleItemB = 0 ↔
      toUpperCase sampleItemA.filename = toUpperCase sampleItemB.filename) ∧
    List.Sorted (fun x y : PageItem => toUpperCase x.filename ≤ toUpperCase y.filename)
      (doSort (fun _ => 0) SortCol.filename SortOrder.asc [sampleItemB, sampleItemA]) ∧
    List.Sorted (fun x y : PageItem => toUpperCase y.filename ≤ toUpperCase x.filename)
      (doSort (fun _ => 0) SortCol.filename SortOrder.desc [sampleItemB, sampleItemA]) ∧
    (doSort (fun _ => 0) SortCol.filename SortOrder.asc [sampleItemB, sampleItemA]).filter
        (fun it => toUpperCase it.filename == "A.TXT") =
      [sampleItemB, sampleItemA].filter (fun it => toUpperCase it.filename == "A.TXT") ∧
    (doSort (fun _ => 0) SortCol.filename SortOrder.desc [sampleItemB, sampleItemA]).filter
        (fun it => toUpperCase it.filename == "A.TXT") =
      [sampleItemB, sampleItemA].filter (fun it => toUpperCase it.filename == "A.TXT") ∧
    doSort (fun _ => 0) SortCol.filename SortOrder.asc [sampleItemB, sampleItemA] =
      [sampleItemA, sampleItemB] :=
  name_sort_ci_stable (fun _ => 0) [sampleItemB, sampleItemA] "A.TXT" sampleItemA sampleItemB

/-- Allocating a fresh array does not change what existing references see. -/
theorem JsHeap.read_alloc_lt (h : JsHeap) (a : List PageItem) (r : Nat)
    (hr : r < h.arrays.length) : (h.alloc a).1.read r = h.read r := by
  unfold JsHeap.alloc JsHeap.read
  simp [List.getElem?_append_left hr]

/-- Writing one reference does not change what other references see. -/
theorem JsHeap.read_write_ne (h : JsHeap) (i : Nat) (a : List PageItem) (r : Nat)
    (hr : r ≠ i) : (h.write i a).read r = h.read r := by
  unfold JsHeap.write JsHeap.read
  rw [List.getElem?_set_ne (fun he => hr he.symm)]

/-- Sorting at the heap level leaves the base array unchanged and keeps its
reference valid. -/
theorem doSortHeap_read_base (parseDate : String → Int) (col : SortCol) (ord : SortOrder)
    (h : JsHeap) (itemsRef : Nat) (hr : itemsRef < h.arrays.length) :
    (doSortHeap parseDate col ord h itemsRef).1.read itemsRef = h.read itemsRef ∧
    itemsRef < (doSortHeap parseDate col ord h itemsRef).1.arrays.length := by
  unfold doSortHeap
  by_cases hord : ord = SortOrder.dirsFirst
  · simp [hord, hr]
  · rw [if_neg hord]
    constructor
    · rw [JsHeap.read_write_ne _ _ _ _ (by simp [JsHeap.alloc]; omega),
        JsHeap.read_alloc_lt _ _ _ hr]
    · simp [JsHeap.write, JsHeap.alloc]
      omega

/-- Claim C7: producing the displayed view never mutates the base item array:
for every sort column, sort order, search pattern, case flag and regex engine,
the array behind the base reference holds the same elements in the same
positions afterwards — sorting copies the array before mutating and filtering
allocates a new array. -/
theorem base_array_never_mutated (eng : RegexEngine) (parseDate : String → Int)
    (col : SortCol) (ord : SortOrder) (searchInput : String) (caseSensitive : Bool)
    (h : JsHeap) (itemsRef : Nat) (hr : itemsRef < h.arrays.length) :
    ((pageViewHeap eng parseDate col ord searchInput caseSensitive h itemsRef).1).read itemsRef =
      h.read itemsRef := by
  obtain ⟨hread, hlen⟩ := doSortHeap_read_base parseDate col ord h itemsRef hr
  unfold pageViewHeap
  by_cases hin : searchInput = ""
  · simp only [hin, if_pos rfl]
    exact hread
  · rw [if_neg hin]
    cases hl : (doSortHeap parseDate col ord h itemsRef).1.read
        (doSortHeap parseDate col ord h itemsRef).2 with
    | nil =>
      simp only [hl]
      exact (JsHeap.read_alloc_lt _ [] itemsRef hlen).trans hread
    | cons a l =>
      cases hc : eng.compile searchInput (regexFlags caseSensitive) with
      | none =>
        simp only [hl, hc]
        exact hread
      | some reg =>
        simp only [hl, hc]
        exact (JsHeap.read_alloc_lt _ _ itemsRef hlen).trans hread

/-- Witness for C7: a one-array heap, the invalid pattern and a descending
sort leave the base array intact. -/
theorem base_array_never_mutated_witness :
    0 < (JsHeap.mk [[sampleItemB, sampleItemA]]).arrays.length ∧
    ((pageViewHeap plainEngine (fun _ => 0) SortCol.filename SortOrder.desc "(" false
        ⟨[[sampleItemB, sampleItemA]]⟩ 0).1).read 0 =
      (JsHeap.mk [[sampleItemB, sampleItemA]]).read 0 :=
  ⟨by decide,
   base_array_never_mutated plainEngine (fun _ => 0) SortCol.filename SortOrder.desc "(" false
     ⟨[[sampleItemB, sampleItemA]]⟩ 0 (by decide)⟩

/-- A render of a row that already holds a response changes nothing: the send
guard requires thumbnailResponse === null. -/
theorem rowRender_of_resolved (ctx : RowCtx) (s : RowState) (h1 : s.response ≠ none) :
    rowRender ctx s = s := by
  unfold rowRender
  cases hn : ctx.thumbnailName with
  | none => rfl
  | some n =>
    dsimp only
    rw [if_neg]
    intro hcond
    exact h1 hcond.2.1

/-- Any event hitting a row that already holds a response keeps the response
present and sends nothing new. -/
theorem rowStep_of_resolved (ctx : RowCtx) (s : RowState) (e : RowEvent)
    (h1 : s.response ≠ none) :
    (rowStep ctx s e).response ≠ none ∧ (rowStep ctx s e).sends = s.sends := by
  cases e with
  | scroll =>
    have h1v : ({ s with inView := true } : RowState).response ≠ none := h1
    rw [rowStep, rowRender_of_resolved ctx _ h1v]
    exact ⟨h1, rfl⟩
  | bus r =>
    unfold rowStep
    dsimp only
    cases hn : ctx.thumbnailName with
    | none =>
      rw [rowRender_of_resolved ctx _ h1]
      exact ⟨h1, rfl⟩
    | some n =>
      dsimp only
      by_cases hm : n ≠ "" ∧ r.name = n
      · rw [if_pos hm]
        have h2 : ({ s with response := some r } : RowState).response ≠ none := by
          simp
        rw [rowRender_of_resolved ctx _ h2]
        exact ⟨h2, rfl⟩
      · rw [if_neg hm, rowRender_of_resolved ctx _ h1]
        exact ⟨h1, rfl⟩
  | rerender =>
    rw [rowStep, rowRender_of_resolved ctx _ h1]
    exact ⟨h1, rfl⟩

/-- Folding any event sequence over a resolved row never sends. -/
theorem rowRun_resolved_aux (ctx : RowCtx) (events : List RowEvent) (s : RowState)
    (h1 : s.response ≠ none) (h2 : s.sends = []) :
    (events.foldl (rowStep ctx) s).response ≠ none ∧
    (events.foldl (rowStep ctx) s).sends = [] := by
  induction events generalizing s with
  | nil => exact ⟨h1, h2⟩
  | cons e rest ih =>
    obtain ⟨hr, hs⟩ := rowStep_of_resolved ctx s e h1
    exact ih (rowStep ctx s e) hr (hs.trans h2)

/-- Claim C8 (amended): for every row whose nonempty thumbnail identifier has a
cached entry at page load, the cached response is used directly as the initial
state and no thumbnail request is ever sent during the page view, whatever
events occur. -/
theorem cached_thumbnail_no_send (ctx : RowCtx) (storage : ThumbStorage)
    (events : List RowEvent) (n : String) (resp : ThumbnailResponse)
    (hname : ctx.thumbnailName = some n) (hne : n ≠ "") (hcache : storage n = some resp) :
    (rowInit storage ctx).response = some resp ∧
    (rowRun ctx storage events).sends = [] := by
  have hinit : (rowInit storage ctx).response = some resp := by
    simp [rowInit, hname, hne, hcache]
  refine ⟨hinit, ?_⟩
  have hinit2 : (rowInit storage ctx).response ≠ none := by
    rw [hinit]
    exact Option.some_ne_none resp
  unfold rowRun
  rw [rowRender_of_resolved ctx _ hinit2]
  exact (rowRun_resolved_aux ctx events (rowInit storage ctx) hinit2 rfl).2

/-- Witness for the amended C8: identifier t cached, row scrolled into view
with the socket open, and re-rendered, yet nothing is sent. -/
theorem cached_thumbnail_no_send_witness :
    (rowInit (fun k => if k = "t" then some (ThumbnailResponse.thumbData "t" "x") else none)
        ⟨some "t", true⟩).response = some (ThumbnailResponse.thumbData "t" "x") ∧
    (rowRun ⟨some "t", true⟩
        (fun k => if k = "t" then some (ThumbnailResponse.thumbData "t" "x") else none)
        [RowEvent.scroll, RowEvent.rerender]).sends = [] :=
  cached_thumbnail_no_send ⟨some "t", true⟩
    (fun k => if k = "t" then some (ThumbnailResponse.thumbData "t" "x") else none)
    [RowEvent.scroll, RowEvent.rerender] "t" (ThumbnailResponse.thumbData "t" "x")
    rfl (by decide) rfl

/-- Claim C8 as stated is false at the empty-string identifier: the line-24
cache read uses JS truthiness, so thumbnail_name = "" skips the cache even
when an entry for "" is present, while the line-37 send guard only checks
thumbnail_name !== null — the row still sends a request once in view. -/
theorem cached_empty_name_still_sends :
    (fun k => if k = "" then some (ThumbnailResponse.thumbData "" "x") else none : ThumbStorage)
        "" = some (ThumbnailResponse.thumbData "" "x") ∧
    (rowRun ⟨some "", true⟩
        (fun k => if k = "" then some (ThumbnailResponse.thumbData "" "x") else none)
        [RowEvent.scroll]).sends = [""] := by
  constructor
  · rfl
  · decide

/-- Running one more event is one more step. -/
theorem rowRun_append (ctx : RowCtx) (storage : ThumbStorage) (l : List RowEvent)
    (e : RowEvent) :
    rowRun ctx storage (l ++ [e]) = rowStep ctx (rowRun ctx storage l) e := by
  simp [rowRun, List.foldl_append]

/-- A render either changes nothing or, when the row is in view with no
response and the socket open, appends exactly the thumbnail identifier to the
send log. -/
theorem rowRender_cases (ctx : RowCtx) (s : RowState) (n : String)
    (hname : ctx.thumbnailName = some n) :
    rowRender ctx s = s ∨
    (s.inView = true ∧ ctx.socketOpen = true ∧ s.response = none ∧
      rowRender ctx s = { s with sends := s.sends ++ [n] }) := by
  unfold rowRender
  rw [hname]
  dsimp only
  by_cases hcond : s.inView = true ∧ s.response = none ∧ ctx.socketOpen = true
  · rw [if_pos hcond]
    exact Or.inr ⟨hcond.1, hcond.2.2, hcond.2.1, rfl⟩
  · rw [if_neg hcond]
    exact Or.inl rfl

/-- Every event is a render of an intermediate state with the same send log,
whose inView flag can only be set by a scroll event or have been set before. -/
theorem rowStep_shape (ctx : RowCtx) (s : RowState) (e : RowEvent) :
    ∃ s2 : RowState, rowStep ctx s e = rowRender ctx s2 ∧ s2.sends = s.sends ∧
      (s2.inView = true → (s.inView = true ∨ e = RowEvent.scroll)) := by
  cases e with
  | scroll => exact ⟨{ s with inView := true }, rfl, rfl, fun _ => Or.inr rfl⟩
  | bus r =>
    unfold rowStep
    dsimp only
    cases hn : ctx.thumbnailName with
    | none => exact ⟨s, rfl, rfl, fun h => Or.inl h⟩
    | some n =>
      dsimp only
      by_cases hm : n ≠ "" ∧ r.name = n
      · rw [if_pos hm]
        exact ⟨{ s with response := some r }, rfl, rfl, fun h => Or.inl h⟩
      · rw [if_neg hm]
        exact ⟨s, rfl, rfl, fun h => Or.inl h⟩
  | rerender => exact ⟨s, rfl, rfl, fun h => Or.inl h⟩

/-- Invariant of a row trace: the row is in view only after a scroll event, the
send log is nonempty only when the socket is open and a scroll event occurred,
and every logged send is the thumbnail identifier of the row. -/
theorem rowRun_send_inv (ctx : RowCtx) (storage : ThumbStorage) (n : String)
    (hname : ctx.thumbnailName = some n) :
    ∀ events : List RowEvent,
      ((rowRun ctx storage events).inView = true → RowEvent.scroll ∈ events) ∧
      ((rowRun ctx storage events).sends ≠ [] →
        ctx.socketOpen = true ∧ RowEvent.scroll ∈ events) ∧
      (∀ m ∈ (rowRun ctx storage events).sends, m = n) := by
  intro events
  induction events using List.reverseRecOn with
  | nil =>
    have h0 : rowRun ctx storage [] = rowRender ctx (rowInit storage ctx) := rfl
    rw [h0]
    rcases rowRender_cases ctx (rowInit storage ctx) n hname with heq | ⟨hv, _⟩
    · rw [heq]
      refine ⟨fun h => absurd h ?_, fun h => absurd rfl h, fun m hm => absurd hm ?_⟩
      · simp [rowInit]
      · exact List.not_mem_nil m
    · exact absurd hv (by simp [rowInit])
  | append_singleton l e ih =>
    rw [rowRun_append]
    obtain ⟨ih1, ih2, ih3⟩ := ih
    obtain ⟨s2, hstep, hsends, hview⟩ := rowStep_shape ctx (rowRun ctx storage l) e
    rw [hstep]
    rcases rowRender_cases ctx s2 n hname with heq | ⟨hv, hopen, _, heq⟩
    · rw [heq]
      refine ⟨?_, ?_, ?_⟩
      · intro hiv
        rcases hview hiv with h | h
        · exact List.mem_append_left _ (ih1 h)
        · rw [h]
          exact List.mem_append_right _ (by simp)
      · intro hs
        rw [hsends] at hs
        obtain ⟨ho, hm⟩ := ih2 hs
        exact ⟨ho, List.mem_append_left _ hm⟩
      · intro m hm
        rw [hsends] at hm
        exact ih3 m hm
    · rw [heq]
      have hscr : RowEvent.scroll ∈ l ++ [e] := by
        rcases hview hv with h | h
        · exact List.mem_append_left _ (ih1 h)
        · rw [h]
          exact List.mem_append_right _ (by simp)
      refine ⟨fun _ => hscr, fun _ => ⟨hopen, hscr⟩, ?_⟩
      intro m hm
      have hm2 : m ∈ s2.sends ++ [n] := hm
      rcases List.mem_append.mp hm2 with h | h
      · rw [hsends] at h
        exact ih3 m h
      · simpa using h

/-- Claim C9 (amended): a row with thumbnail identifier n sends requests only
if the socket is open and the row was scrolled into view, and everything it
sends is its own identifier n; but the request is re-sent on every render
while no response has arrived, so it is NOT sent at most once (see the
counterexample for the repeated send). -/
theorem thumbnail_request_guarded (ctx : RowCtx) (storage : ThumbStorage)
    (events : List RowEvent) (n : String) (hname : ctx.thumbnailName = some n) :
    ((rowRun ctx storage events).sends ≠ [] →
      ctx.socketOpen = true ∧ RowEvent.scroll ∈ events) ∧
    (∀ m ∈ (rowRun ctx storage events).sends, m = n) :=
  ⟨(rowRun_send_inv ctx storage n hname events).2.1,
   (rowRun_send_inv ctx storage n hname events).2.2⟩

/-- Witness for the amended C9: an uncached row scrolled into view with the
socket open has sent something, and all of it is its own identifier. -/
theorem thumbnail_request_guarded_witness :
    ((RowCtx.mk (some "t") true).socketOpen = true ∧
      RowEvent.scroll ∈ [RowEvent.scroll]) ∧
    (∀ m ∈ (rowRun ⟨some "t", true⟩ (fun _ => none) [RowEvent.scroll]).sends, m = "t") :=
  ⟨(thumbnail_request_guarded ⟨some "t", true⟩ (fun _ => none) [RowEvent.scroll] "t" rfl).1
     (by decide),
   (thumbnail_request_guarded ⟨some "t", true⟩ (fun _ => none) [RowEvent.scroll] "t" rfl).2⟩

/-- Claim C9 as stated is false: the send guard has no sent-already flag, so a
re-render while the response is outstanding repeats the request — after a
scroll and one parent re-render the identifier has been sent twice. -/
theorem thumbnail_request_repeated :
    (rowRun ⟨some "t", true⟩ (fun _ => none) [RowEvent.scroll, RowEvent.rerender]).sends =
      ["t", "t"] ∧
    ¬((rowRun ⟨some "t", true⟩ (fun _ => none)
        [RowEvent.scroll, RowEvent.rerender]).sends.length ≤ 1) := by
  constructor
  · decide
  · decide

/-- Claim C10: the onmessage handler writes only ThumbnailData responses to the
persistent cache and always broadcasts the parsed response; hence if every
cache entry is a data response before a message burst, every entry is still a
data response afterwards, an error response leaves the cache untouched, and an
identifier that is still uncached is requested again on a later page load once
its row scrolls into view with the socket open. -/
theorem errors_never_cached (storage : ThumbStorage) (rs : List ThumbnailResponse)
    (hinv : ∀ k r0, storage k = some r0 → r0.isData = true) :
    (∀ k r0, runMessages storage rs k = some r0 → r0.isData = true) ∧
    (∀ r, (onMessage storage r).2 = r) ∧
    (∀ n msg, (onMessage storage (ThumbnailResponse.thumbError n msg)).1 = storage) ∧
    (∀ n, n ≠ "" → runMessages storage rs n = none →
      (rowRun ⟨some n, true⟩ (runMessages storage rs) [RowEvent.scroll]).sends = [n]) := by
  refine ⟨?_, fun r => rfl, fun n msg => rfl, ?_⟩
  · induction rs generalizing storage with
    | nil => exact hinv
    | cons r rest ih =>
      apply ih
      intro k r0 hk
      cases r with
      | thumbData nm d =>
        unfold onMessage at hk
        dsimp only at hk
        by_cases hkn : k = nm
        · rw [if_pos hkn] at hk
          cases hk
          rfl
        · rw [if_neg hkn] at hk
          exact hinv k r0 hk
      | thumbError nm m => exact hinv k r0 hk
  · intro n hne hnone
    simp [rowRun, rowStep, rowRender, rowInit, hne, hnone]

/-- Witness for C10: starting from an empty cache, a single error response for
identifier t is broadcast, leaves the cache empty, and the identifier is
requested on the next page load. -/
theorem errors_never_cached_witness :
    (∀ r, (onMessage (fun _ => none) r).2 = r) ∧
    (onMessage (fun _ => none) (ThumbnailResponse.thumbError "t" "m")).1 = (fun _ => none) ∧
    (rowRun ⟨some "t", true⟩
        (runMessages (fun _ => none) [ThumbnailResponse.thumbError "t" "m"])
        [RowEvent.scroll]).sends = ["t"] :=
  ⟨(errors_never_cached (fun _ => none) [ThumbnailResponse.thumbError "t" "m"]
      (fun k r0 h => Option.noConfusion h)).2.1,
   (errors_never_cached (fun _ => none) [ThumbnailResponse.thumbError "t" "m"]
      (fun k r0 h => Option.noConfusion h)).2.2.1 "t" "m",
   (errors_never_cached (fun _ => none) [ThumbnailResponse.thumbError "t" "m"]
      (fun k r0 h => Option.noConfusion h)).2.2.2 "t" (by decide) rfl⟩
